import Mathlib

/-!
Verification of the sequential-thinking recall server.

Shallow embedding of the two core source files:
  * the MCP server (`SequentialThinkingServer`: validation, session
    accumulation, terminal-step flush, tool dispatch), and
  * the persistence gateway (`RecallIntegration`: JSONL serialization,
    store/list/get against a remote bucket).

Remote effects (bucket writes, queries, object fetches, clock reads and
fresh-id generation) are passed in as explicit parameters so every
definition is an executable pure function; a remote call that may throw
is represented by an `Except String` outcome parameter.
-/

namespace SeqThink

/-- Model of a JavaScript primitive value as it may appear in one of the
four required fields of the raw tool-call arguments (the source reads them
as `unknown` in `validateThoughtData`).  JS `undefined` is modelled as
`none` at the surrounding `Option JSValue` level; JS numbers are modelled
as integers (the source only compares, copies and serializes them). -/
inductive JSValue where
  | str (s : String)
  | num (n : Int)
  | boolVal (b : Bool)
  | nullVal
deriving DecidableEq, Repr

/-- JavaScript truthiness of a possibly-absent value (the `!x` tests in the
source): `undefined`, `null`, the empty string, `0` and `false` are falsy. -/
def truthy : Option JSValue → Bool
  | none => false
  | some (.str s) => decide (s ≠ "")
  | some (.num n) => decide (n ≠ 0)
  | some (.boolVal b) => b
  | some .nullVal => false

/-- The `typeof x === 'string'` test of the source. -/
def isStr : Option JSValue → Bool
  | some (.str _) => true
  | _ => false

/-- The `typeof x === 'number'` test of the source. -/
def isNum : Option JSValue → Bool
  | some (.num _) => true
  | _ => false

/-- The `typeof x === 'boolean'` test of the source. -/
def isBool : Option JSValue → Bool
  | some (.boolVal _) => true
  | _ => false

/-- Extract the string payload of a value known to be a string. -/
def strVal : Option JSValue → String
  | some (.str s) => s
  | _ => ""

/-- Extract the numeric payload of a value known to be a number. -/
def numVal : Option JSValue → Int
  | some (.num n) => n
  | _ => 0

/-- Extract the boolean payload of a value known to be a boolean. -/
def boolValOf : Option JSValue → Bool
  | some (.boolVal b) => b
  | _ => false

/-- The `ThoughtData` interface of the source (both files declare the same
shape): one validated step of a session. -/
structure ThoughtData where
  thought : String
  thoughtNumber : Int
  totalThoughts : Int
  nextThoughtNeeded : Bool
  isRevision : Option Bool
  revisesThought : Option Int
  branchFromThought : Option Int
  branchId : Option String
  needsMoreThoughts : Option Bool
deriving DecidableEq, Repr

/-- The raw tool-call arguments as seen by `validateThoughtData`.  The four
required fields are arbitrary JS values (possibly absent); the five optional
fields are passed through by an unchecked TypeScript cast (`as boolean |
undefined` and so on), which performs no runtime conversion, so they are
modelled at their target types directly. -/
structure RawInput where
  thought : Option JSValue
  thoughtNumber : Option JSValue
  totalThoughts : Option JSValue
  nextThoughtNeeded : Option JSValue
  isRevision : Option Bool
  revisesThought : Option Int
  branchFromThought : Option Int
  branchId : Option String
  needsMoreThoughts : Option Bool
deriving DecidableEq, Repr

/-- Embedding of `validateThoughtData` (server file, lines 76-103).  The
source tests `!data.thought || typeof data.thought !== 'string'` and the
analogous conjunctions for the two numeric fields, and only
`typeof data.nextThoughtNeeded !== 'boolean'` for the continuation flag;
a thrown `Error` is modelled as `Except.error` carrying its message. -/
def validateThoughtData (data : RawInput) : Except String ThoughtData :=
  if !(truthy data.thought && isStr data.thought) then
    .error "Invalid thought: must be a string"
  else if !(truthy data.thoughtNumber && isNum data.thoughtNumber) then
    .error "Invalid thoughtNumber: must be a number"
  else if !(truthy data.totalThoughts && isNum data.totalThoughts) then
    .error "Invalid totalThoughts: must be a number"
  else if !(isBool data.nextThoughtNeeded) then
    .error "Invalid nextThoughtNeeded: must be a boolean"
  else
    .ok { thought := strVal data.thought
          thoughtNumber := numVal data.thoughtNumber
          totalThoughts := numVal data.totalThoughts
          nextThoughtNeeded := boolValOf data.nextThoughtNeeded
          isRevision := data.isRevision
          revisesThought := data.revisesThought
          branchFromThought := data.branchFromThought
          branchId := data.branchId
          needsMoreThoughts := data.needsMoreThoughts }

/-- Embedding of the `estimatedTotal` widening at server lines 204-206:
`if (validatedInput.thoughtNumber > validatedInput.totalThoughts)
  validatedInput.totalThoughts = validatedInput.thoughtNumber`. -/
def adjustTotals (t : ThoughtData) : ThoughtData :=
  if t.thoughtNumber > t.totalThoughts then
    { t with totalThoughts := t.thoughtNumber }
  else t

/-- Indexed map used to embed the `array.map((x, index) => ...)` calls of
the source, carrying the running 0-based index. -/
def mapWithIndex (f : Nat → α → β) : Nat → List α → List β
  | _, [] => []
  | i, a :: rest => f i a :: mapWithIndex f (i + 1) rest

/-- A thought as handed to the gateway by the server: `thoughtsToStore`
(server lines 145-159) copies every `ThoughtData` field and attaches the
current session id. -/
structure SessionThought where
  data : ThoughtData
  sessionId : String
deriving DecidableEq, Repr

/-- The `queryInfo` argument of `storeSession`. -/
structure QueryInfo where
  query : Option String
  result : Option String
  sessionId : Option String
deriving DecidableEq, Repr

/-- A thought as held in the gateway's pending buffer
(`currentSessionThoughts`): the incoming thought enriched with a capture
timestamp, an ISO storage time, and the optional query / result labels. -/
structure EnhancedThought where
  st : SessionThought
  timestamp : Nat
  storedAt : String
  query : Option String
  result : Option String
deriving DecidableEq, Repr

/-- The `x || undefined` coercion the source applies to `queryInfo?.query`
and `queryInfo?.result`: an empty string collapses to `undefined`. -/
def orUndef : Option String → Option String
  | some s => if s = "" then none else some s
  | none => none

/-- The placeholder text substituted for a missing/empty thought, embedding
the step's 1-based position (used identically at gateway lines 225 and 310). -/
def placeholderText (i : Nat) : String :=
  "Thought " ++ toString (i + 1) ++ " (content missing)"

/-- One step of the `enhancedThoughts` map of `storeSession` (gateway lines
305-326): substitute the placeholder when the thought text is falsy (empty),
then attach timestamp, ISO time and query labels. -/
def enhanceThought (nowMs : Nat) (storedAtStr : String) (qi : QueryInfo)
    (i : Nat) (t : SessionThought) : EnhancedThought :=
  let base :=
    if t.data.thought = "" then
      { t with data := { t.data with thought := placeholderText i } }
    else t
  { st := base
    timestamp := nowMs
    storedAt := storedAtStr
    query := orUndef qi.query
    result := orUndef qi.result }

/-- The full `enhancedThoughts` batch of `storeSession`. -/
def enhanceBatch (nowMs : Nat) (storedAtStr : String) (qi : QueryInfo)
    (thoughts : List SessionThought) : List EnhancedThought :=
  mapWithIndex (enhanceThought nowMs storedAtStr qi) 0 thoughts

/-- One step of the `validatedThoughts` map of `storeSessionJSONL` (gateway
lines 220-229): a buffered thought whose text is falsy (empty) is replaced
by the positional placeholder; every other thought is kept unchanged. -/
def fixThoughtText (i : Nat) (t : EnhancedThought) : EnhancedThought :=
  if t.st.data.thought = "" then
    { t with st := { t.st with data := { t.st.data with thought := placeholderText i } } }
  else t

/-- The `validatedThoughts` batch of `storeSessionJSONL`. -/
def validatedThoughts (buf : List EnhancedThought) : List EnhancedThought :=
  mapWithIndex fixThoughtText 0 buf

/-- The serialized JSONL payload of `storeSessionJSONL` (gateway line 232):
one `JSON.stringify` line per validated thought, joined by newlines.  The
JSON encoder itself is an injected parameter `stringify`. -/
def jsonlData (stringify : EnhancedThought → String)
    (buf : List EnhancedThought) : String :=
  String.intercalate "\n" ((validatedThoughts buf).map stringify)

/-- The derived object key of `storeSessionJSONL` (gateway line 211):
`` `${this.logPrefix}${timestamp}-session.jsonl` ``. -/
def mkKey (pref : String) (tsMs : Nat) : String :=
  pref ++ toString tsMs ++ "-session.jsonl"

/-- The result shape `{ txHash?, success, key }` returned by the store
operations. -/
structure StoreResult where
  txHash : Option String
  success : Bool
  key : String
deriving DecidableEq, Repr

/-- Observable outcome of one `storeSessionJSONL` call: the returned value
(`none` embeds the source's `undefined`), the pending buffer afterwards,
and — as instrumentation — the validated batch actually handed to the
bucket `add` call (`[]` when nothing was written). -/
structure StoreStep where
  result : Option StoreResult
  buffer : List EnhancedThought
  written : List EnhancedThought
deriving DecidableEq, Repr

/-- Embedding of `storeSessionJSONL` (gateway lines 201-282) over the
pending buffer `buf` (= `this.currentSessionThoughts`).  The remote
`bucketManager().add` call (with its 20 s timeout) is abstracted by
`addOutcome`: `.error` is a write failure or timeout caught by the inner
`catch` (lines 249-256); `.ok txOpt` is an accepted write whose optional
transaction hash is `txOpt` (lines 262-277).  On an accepted write the
buffer is cleared (lines 258-260); on a failed write it is left as is.
The outer `catch` (returning `undefined`) guards only operations that
cannot fail in this model and is therefore unreachable. -/
def storeSessionJSONL (pref : String) (tsMs : Nat)
    (addOutcome : Except String (Option String))
    (buf : List EnhancedThought) : StoreStep :=
  if buf.isEmpty then
    { result := none, buffer := buf, written := [] }
  else
    let key := mkKey pref tsMs
    let v := validatedThoughts buf
    match addOutcome with
    | .error _ =>
        { result := some { txHash := none, success := false, key := key }
          buffer := buf, written := v }
    | .ok (some tx) =>
        { result := some { txHash := some tx, success := true, key := key }
          buffer := [], written := v }
    | .ok none =>
        { result := some { txHash := none, success := true, key := key }
          buffer := [], written := v }

/-- Embedding of the public `storeSession` (gateway lines 289-342): the
incoming batch is enhanced and then REPLACES the pending buffer wholesale
(line 333, `this.currentSessionThoughts = enhancedThoughts`) — the prior
buffer `buf` is discarded, never merged — before `storeSessionJSONL` runs
on the replaced buffer. -/
def storeSession (pref : String) (nowMs : Nat) (storedAtStr : String)
    (tsMs : Nat) (qi : QueryInfo) (thoughts : List SessionThought)
    (addOutcome : Except String (Option String))
    (buf : List EnhancedThought) : StoreStep :=
  let _discarded := buf
  let enhanced := enhanceBatch nowMs storedAtStr qi thoughts
  storeSessionJSONL pref tsMs addOutcome enhanced

/-- Embedding of JS `content.trim()`: drop leading and trailing
whitespace (executable char-list function). -/
def trimChars (l : List Char) : List Char :=
  ((l.dropWhile Char.isWhitespace).reverse.dropWhile Char.isWhitespace).reverse

/-- Embedding of JS `split(sep)` on characters: `''` splits to one empty
piece, a trailing separator yields a trailing empty piece. -/
def splitOnChar (sep : Char) : List Char → List (List Char)
  | [] => [[]]
  | c :: rest =>
    let r := splitOnChar sep rest
    if c = sep then [] :: r
    else
      match r with
      | [] => [[c]]
      | hd :: tl => (c :: hd) :: tl

/-- The line split of `getSessionObject` (gateway line 457):
`content.trim().split('\n')`. -/
def splitTrimmedLines (c : String) : List String :=
  (splitOnChar (Char.ofNat 10) (trimChars c.data)).map List.asString

/-- One parsed line of a retrieved session record: either a successfully
parsed value, or the error placeholder object
`{ error: 'Invalid JSON at line N', lineContent: line.substring(0, 50) }`
substituted at gateway line 465. -/
inductive ParsedLine (α : Type) where
  | ok (value : α)
  | badLine (msg : String) (lineContent : String)
deriving DecidableEq, Repr

/-- The per-line parse loop of `getSessionObject` (gateway lines 460-467);
`parse` embeds `JSON.parse` restricted to a single line, with `none` for a
thrown parse error. -/
def parseLines (parse : String → Option α) (lines : List String) :
    List (ParsedLine α) :=
  mapWithIndex
    (fun i line =>
      match parse line with
      | some v => .ok v
      | none => .badLine ("Invalid JSON at line " ++ toString (i + 1))
                  (line.data.take 50).asString)
    0 lines

/-- The result shape of a successful `getSessionObject`. -/
structure SessionObjectResult (α : Type) where
  key : String
  thoughts : List (ParsedLine α)
  thoughtCount : Nat
  createdAt : Option Nat
deriving DecidableEq, Repr

/-- Embedding of `getSessionObject` (gateway lines 443-488).  `content` is
the outcome of `getObjectContent`: `none` models both a missing object and
a failed fetch (the source returns `null` in either case), and the source's
`if (!content) return null` also sends the empty string to `null`.  The
content is trimmed and split on newlines, and each line is parsed
independently, a failing line becoming an error placeholder at its
position.  `tsOf` reads the `timestamp` field of a parsed value for the
`createdAt` derivation from the first thought; the two outer `catch`
blocks guard only operations that cannot fail in this model. -/
def getSessionObject (parse : String → Option α) (tsOf : α → Option Nat)
    (key : String) (content : Option String) :
    Option (SessionObjectResult α) :=
  match content with
  | none => none
  | some c =>
    if c = "" then none
    else
      let lines := splitTrimmedLines c
      let thoughts := parseLines parse lines
      some { key := key
             thoughts := thoughts
             thoughtCount := thoughts.length
             createdAt :=
               match thoughts.head? with
               | some (.ok v) => tsOf v
               | _ => none }

/-- Boolean list-prefix test (structural, used by `strContains`). -/
def isPrefixList [DecidableEq α] : List α → List α → Bool
  | [], _ => true
  | _ :: _, [] => false
  | a :: pa, b :: lb => decide (a = b) && isPrefixList pa lb

/-- Boolean list-infix test (structural, used by `strContains`). -/
def isInfixList [DecidableEq α] (pat : List α) : List α → Bool
  | [] => pat.isEmpty
  | l@(_ :: rest) => isPrefixList pat l || isInfixList pat rest

/-- Embedding of JavaScript `s.includes(pat)`: substring containment. -/
def strContains (s pat : String) : Bool :=
  isInfixList pat.data s.data

/-- Fold a digit run into the number `parseInt` would produce. -/
def digitsToNat : List Char → Nat → Nat
  | [], acc => acc
  | c :: rest, acc => digitsToNat rest (acc * 10 + (c.toNat - '0'.toNat))

/-- Embedding of the regular-expression search `key.match(/-(\d+)-/)` of
gateway line 413 followed by `parseInt` on its first capture group: find
the first hyphen followed by a non-empty digit run followed by a hyphen,
and return that run's numeric value. -/
def findEpoch : List Char → Option Nat
  | [] => none
  | c :: rest =>
    if c = '-' then
      match rest.takeWhile Char.isDigit, rest.dropWhile Char.isDigit with
      | _ :: _, '-' :: _ => some (digitsToNat (rest.takeWhile Char.isDigit) 0)
      | _, _ => findEpoch rest
    else findEpoch rest

/-- String-level wrapper for `findEpoch`. -/
def extractEpoch (s : String) : Option Nat :=
  findEpoch s.data

/-- The metadata attached to a listed bucket object; only the fields the
source ever reads are modelled. -/
structure MetaInfo where
  timestamp : Option Nat
  thoughtCount : Option Nat
deriving DecidableEq, Repr

/-- One raw object as returned by the remote `bucketManager().query` call:
its key, and the optional `state` metadata / size. -/
structure QueryObj where
  key : String
  stateMeta : Option MetaInfo
  stateSize : Option Nat
deriving DecidableEq, Repr

/-- The `RecallObject` interface of the gateway (lines 29-37). -/
structure RecallObject where
  key : String
  size : Nat
  metadata : MetaInfo
deriving DecidableEq, Repr

/-- The per-object mapping of `listAllSessionObjects` (gateway lines
394-430): start from the state metadata (empty when absent), then — when
the key contains the log prefix and embeds an epoch segment — ASSIGN the
epoch value to `metadata.timestamp`, overwriting any value already there;
size defaults to 0.  The per-object `catch` guards only operations that
cannot fail in this model. -/
def mapQueryObj (pref : String) (extractTs : String → Option Nat)
    (obj : QueryObj) : RecallObject :=
  let base :=
    match obj.stateMeta with
    | some m => m
    | none => { timestamp := none, thoughtCount := none }
  let meta :=
    if strContains obj.key pref then
      match extractTs obj.key with
      | some ts => { base with timestamp := some ts }
      | none => base
    else base
  { key := obj.key
    size := obj.stateSize.getD 0
    metadata := meta }

/-- Embedding of `listAllSessionObjects` (gateway lines 382-436).
`queryOutcome` abstracts the remote `bucketManager().query` call; the
`catch` at lines 432-435 turns a remote error into an empty array.  On
success every object is mapped and the result filtered to keys containing
the log prefix. -/
def listAllSessionObjects (pref : String) (extractTs : String → Option Nat)
    (queryOutcome : Except String (List QueryObj)) : List RecallObject :=
  match queryOutcome with
  | .error _ => []
  | .ok objs =>
      (objs.map (mapQueryObj pref extractTs)).filter
        (fun o => strContains o.key pref)

/-- JavaScript truthiness of an optional string (`query && ...`,
`!this.currentQuery`, `branchId` guards): absent or empty is falsy. -/
def strOptTruthy : Option String → Bool
  | none => false
  | some s => decide (s ≠ "")

/-- JavaScript truthiness of an optional number (`branchFromThought`
guard): absent or zero is falsy. -/
def intOptTruthy : Option Int → Bool
  | none => false
  | some n => decide (n ≠ 0)

/-- The mutable fields of `SequentialThinkingServer` (server lines 40-43). -/
structure ServerState where
  thoughtHistory : List ThoughtData
  branches : List (String × List ThoughtData)
  currentQuery : Option String
  currentSessionId : String
deriving DecidableEq, Repr

/-- Look up a branch by id in the branch record. -/
def branchesLookup (bs : List (String × List ThoughtData)) (id : String) :
    Option (List ThoughtData) :=
  (bs.find? (fun p => decide (p.1 = id))).map Prod.snd

/-- The branch-index update of `processThought` (server lines 212-217):
create the entry when absent, then push the step onto it. -/
def branchesAdd (bs : List (String × List ThoughtData)) (id : String)
    (t : ThoughtData) : List (String × List ThoughtData) :=
  match branchesLookup bs id with
  | none => bs ++ [(id, [t])]
  | some _ => bs.map (fun p => if p.1 = id then (p.1, p.2 ++ [t]) else p)

/-- Embedding of `clearSession` followed by `generateNewSessionId` (server
lines 52-64): history, branches and query are reset and a fresh id (an
environment input) is installed. -/
def clearSession (freshId : String) : ServerState :=
  { thoughtHistory := [], branches := [], currentQuery := none
    currentSessionId := freshId }

/-- Abstract payload of a tool response; the source serializes these
shapes with `JSON.stringify`, which is irrelevant to the claims. -/
inductive Payload where
  | processOk (thoughtNumber totalThoughts : Int) (nextThoughtNeeded : Bool)
      (branchKeys : List String) (historyLen : Nat)
      (stored : Bool) (storeInfo : Option StoreResult)
  | processErr (msg : String)
  | statusOk (initialized : Bool) (bucketAddress : Option String)
  | statusErr (msg : String)
  | sessionsOk (count : Nat)
  | sessionsErr (msg : String)
  | getOk (key : String)
  | getErr (msg : String)
  | unknownTool (name : String)
  | outerErr (msg : String)
deriving DecidableEq, Repr

/-- A tool response as handed to the transport: a payload plus the MCP
`isError` flag (absent in the source is modelled as `false`). -/
structure ToolResponse where
  payload : Payload
  isError : Bool
deriving DecidableEq, Repr

/-- Environment inputs of one `processThought` call: the clock readings,
the outcome of the remote bucket write, and the fresh session id that
`generateNewSessionId` would mint. -/
structure StoreEnv where
  nowMs : Nat
  storedAtStr : String
  tsMs : Nat
  addOutcome : Except String (Option String)
  freshId : String
  pref : String

/-- Observable outcome of one `processThought` call: the response, the
server state and gateway buffer afterwards, how many times the gateway
`storeSession` was invoked, the store result (`none` embeds `undefined`),
and the validated batch handed to the bucket write (instrumentation). -/
structure ProcessOut where
  resp : ToolResponse
  state : ServerState
  gatewayBuf : List EnhancedThought
  storeCalls : Nat
  storeResult : Option StoreResult
  written : List EnhancedThought

/-- The first-writer-wins query fixing of `processThought` (server lines
199-202): `if (query && !this.currentQuery) this.currentQuery = query`. -/
def fixQuery (query : Option String) (s : ServerState) : ServerState :=
  if strOptTruthy query && !(strOptTruthy s.currentQuery) then
    { s with currentQuery := query }
  else s

/-- The history append of `processThought` (server line 209). -/
def appendToHistory (v : ThoughtData) (s : ServerState) : ServerState :=
  { s with thoughtHistory := s.thoughtHistory ++ [v] }

/-- The branch-index update of `processThought` (server lines 212-217),
guarded by JS truthiness of both branch fields. -/
def updateBranches (v : ThoughtData) (s : ServerState) : ServerState :=
  if intOptTruthy v.branchFromThought && strOptTruthy v.branchId then
    { s with branches := branchesAdd s.branches (v.branchId.getD "") v }
  else s

/-- The `queryInfo` the server passes to the gateway on flush (server lines
174-177): `this.currentQuery || 'No query provided'` plus the session id. -/
def sessionQueryInfo (s : ServerState) : QueryInfo :=
  { query := some (match s.currentQuery with
                   | some q => if q = "" then "No query provided" else q
                   | none => "No query provided")
    result := none
    sessionId := some s.currentSessionId }

/-- Embedding of `processThought` (server lines 194-317) composed with
`storeSessionToRecall` (lines 133-192).  Steps: validate (a failure is
caught and returned as an error payload with `isError`); fix the query
first-writer-wins (lines 199-202); widen `totalThoughts` (lines 204-206);
append to the history (line 209); update the branch index when both
branch fields are truthy (lines 212-217).  On a terminal step
(`nextThoughtNeeded === false`), when the history is non-empty, the full
history is tagged with the session id and handed to the gateway
`storeSession` exactly once; the session is cleared (with a fresh id)
only when the returned result exists and reports `success` (lines
252-256), otherwise the state is kept.  The response is then built from
the post-clear state (lines 265-297). -/
def processThought (env : StoreEnv) (raw : RawInput) (query : Option String)
    (s : ServerState) (g : List EnhancedThought) : ProcessOut :=
  match validateThoughtData raw with
  | .error msg =>
      { resp := { payload := .processErr msg, isError := true }
        state := s, gatewayBuf := g, storeCalls := 0
        storeResult := none, written := [] }
  | .ok v0 =>
    let v := adjustTotals v0
    let s3 := updateBranches v (appendToHistory v (fixQuery query s))
    if v.nextThoughtNeeded then
      { resp := { payload := .processOk v.thoughtNumber v.totalThoughts true
                    (s3.branches.map Prod.fst) s3.thoughtHistory.length
                    false none
                  isError := false }
        state := s3, gatewayBuf := g, storeCalls := 0
        storeResult := none, written := [] }
    else
      if s3.thoughtHistory.isEmpty then
        { resp := { payload := .processOk v.thoughtNumber v.totalThoughts false
                      (s3.branches.map Prod.fst) s3.thoughtHistory.length
                      false none
                    isError := false }
          state := s3, gatewayBuf := g, storeCalls := 0
          storeResult := none, written := [] }
      else
        let toStore :=
          s3.thoughtHistory.map (fun t => SessionThought.mk t s3.currentSessionId)
        let step := storeSession env.pref env.nowMs env.storedAtStr env.tsMs
                      (sessionQueryInfo s3) toStore env.addOutcome g
        let cleared :=
          match step.result with
          | some r => r.success
          | none => false
        let s4 := if cleared then clearSession env.freshId else s3
        { resp := { payload := .processOk v.thoughtNumber v.totalThoughts false
                      (s4.branches.map Prod.fst) s4.thoughtHistory.length
                      step.result.isSome step.result
                    isError := false }
          state := s4, gatewayBuf := step.buffer, storeCalls := 1
          storeResult := step.result, written := step.written }

/-- Tail of a sequential run of `process-a-step` calls: starting from the
outcome `o` of the previous call, process the remaining inputs (with no
query), threading the server state and gateway buffer, and return the
LAST call's outcome. -/
def processManyAux (env : StoreEnv) (o : ProcessOut) :
    List RawInput → ProcessOut
  | [] => o
  | r :: rest =>
      processManyAux env (processThought env r none o.state o.gatewayBuf) rest

/-- Process a non-empty list of raw inputs in sequence (each one a
`process-a-step` call with no query), returning the LAST call's outcome;
`none` for the empty list. -/
def processMany (env : StoreEnv) (rs : List RawInput) (s : ServerState)
    (g : List EnhancedThought) : Option ProcessOut :=
  match rs with
  | [] => none
  | r :: rest => some (processManyAux env (processThought env r none s g) rest)

/-- A parsed line value as far as the dispatcher inspects it (only the
optional `timestamp` field is ever read, for `createdAt`). -/
structure PVal where
  timestamp : Option Nat
deriving DecidableEq, Repr

/-- One incoming tool call, routed on `request.params.name` (server lines
513-698).  `getsession` carries its `key` argument (`none` for absent). -/
inductive ToolRequest where
  | seqthinking (args : RawInput) (query : Option String)
  | recallstatus
  | listsessions (includeLinks : Bool)
  | getsession (key : Option String)
  | unknown (name : String)

/-- Environment inputs of one dispatcher call: the `processThought`
environment, whether the gateway is already initialized, the outcome of a
forced `initializeBucket`, the cached bucket address, the outcome of the
remote object query, the fetched content for `getsession`, and the
line parser. -/
structure DispatchEnv where
  procEnv : StoreEnv
  isInit : Bool
  initOutcome : Except String Unit
  bucketAddress : Option String
  queryOutcome : Except String (List QueryObj)
  getContent : Option String
  parse : String → Option PVal

/-- The `if (!recallIntegration.isInitialized()) await initializeBucket()`
guard used by the status/list/get branches. -/
def ensureInitTool (de : DispatchEnv) : Except String Unit :=
  if de.isInit then .ok () else de.initOutcome

/-- The body of the `CallToolRequestSchema` handler inside its outermost
`try` (server lines 514-706).  An `.error` result is an exception that
escapes a branch and reaches the outer `catch`; branch-local `catch`
blocks are folded in: the `recallstatus` catch (lines 561-575) returns a
structured payload WITHOUT the `isError` flag, while the `listsessions`
(lines 629-642) and `getsession` (lines 684-697) catches set
`isError: true`.  In the `sequentialthinking` branch the debug line
`args.thought.substring(0, 100)` (line 523) throws before validation when
`args.thought` is not a string. -/
def dispatchBody (de : DispatchEnv) (req : ToolRequest) (s : ServerState)
    (g : List EnhancedThought) :
    Except String (ToolResponse × ServerState × List EnhancedThought) :=
  match req with
  | .seqthinking args query =>
      if !(isStr args.thought) then
        .error "Cannot read properties of undefined (reading substring)"
      else
        let o := processThought de.procEnv args query s g
        .ok (o.resp, o.state, o.gatewayBuf)
  | .recallstatus =>
      match ensureInitTool de with
      | .error e =>
          .ok ({ payload := .statusErr e, isError := false }, s, g)
      | .ok _ =>
          .ok ({ payload := .statusOk true de.bucketAddress, isError := false }, s, g)
  | .listsessions _ =>
      match ensureInitTool de with
      | .error e =>
          .ok ({ payload := .sessionsErr e, isError := true }, s, g)
      | .ok _ =>
          let objs := listAllSessionObjects de.procEnv.pref extractEpoch de.queryOutcome
          .ok ({ payload := .sessionsOk objs.length, isError := false }, s, g)
  | .getsession keyOpt =>
      match keyOpt with
      | none =>
          .ok ({ payload := .getErr "Session key is required", isError := true }, s, g)
      | some key =>
          if key = "" then
            .ok ({ payload := .getErr "Session key is required", isError := true }, s, g)
          else
            match ensureInitTool de with
            | .error e =>
                .ok ({ payload := .getErr e, isError := true }, s, g)
            | .ok _ =>
                match getSessionObject de.parse PVal.timestamp key de.getContent with
                | none =>
                    .ok ({ payload := .getErr ("Session file \"" ++ key ++ "\" not found")
                           isError := true }, s, g)
                | some _ =>
                    .ok ({ payload := .getOk key, isError := false }, s, g)
  | .unknown name =>
      .ok ({ payload := .unknownTool name, isError := true }, s, g)

/-- The full `CallToolRequestSchema` handler: the outermost `catch` (server
lines 707-718) converts any escaped exception into an
`Error processing request: ...` payload with `isError: true`, so the
handler itself is a total function into well-formed responses. -/
def handleCallTool (de : DispatchEnv) (req : ToolRequest) (s : ServerState)
    (g : List EnhancedThought) :
    ToolResponse × ServerState × List EnhancedThought :=
  match dispatchBody de req s g with
  | .ok r => r
  | .error e =>
      ({ payload := .outerErr ("Error processing request: " ++ e)
         isError := true }, s, g)

/-! Helper lemmas. -/

theorem mapWithIndex_length (f : Nat → α → β) :
    ∀ (k : Nat) (l : List α), (mapWithIndex f k l).length = l.length
  | _, [] => rfl
  | k, _ :: rest => by
      simp [mapWithIndex, mapWithIndex_length f (k + 1) rest]

theorem mapWithIndex_getElem? (f : Nat → α → β) (k : Nat) (l : List α) :
    ∀ i : Nat, (mapWithIndex f k l)[i]? = (l[i]?).map (f (k + i)) := by
  induction l generalizing k with
  | nil => intro i; simp [mapWithIndex]
  | cons a rest ih =>
    intro i
    cases i with
    | zero => simp [mapWithIndex]
    | succ i =>
      have := ih (k + 1) i
      simp only [mapWithIndex, List.getElem?_cons_succ, this]
      have harith : k + 1 + i = k + (i + 1) := by omega
      rw [harith]

theorem adjustTotals_thought (t : ThoughtData) :
    (adjustTotals t).thought = t.thought := by
  unfold adjustTotals; split <;> rfl

theorem adjustTotals_next (t : ThoughtData) :
    (adjustTotals t).nextThoughtNeeded = t.nextThoughtNeeded := by
  unfold adjustTotals; split <;> rfl

theorem fixQuery_thoughtHistory (q : Option String) (s : ServerState) :
    (fixQuery q s).thoughtHistory = s.thoughtHistory := by
  unfold fixQuery; split <;> rfl

theorem fixQuery_currentSessionId (q : Option String) (s : ServerState) :
    (fixQuery q s).currentSessionId = s.currentSessionId := by
  unfold fixQuery; split <;> rfl

theorem updateBranches_thoughtHistory (v : ThoughtData) (s : ServerState) :
    (updateBranches v s).thoughtHistory = s.thoughtHistory := by
  unfold updateBranches; split <;> rfl

theorem updateBranches_currentSessionId (v : ThoughtData) (s : ServerState) :
    (updateBranches v s).currentSessionId = s.currentSessionId := by
  unfold updateBranches; split <;> rfl

/-! Claim C2: widening of the estimated total. -/

/-- Claim C2: for every validated step appended to the session, the
transform at server lines 204-206 (embedded as `adjustTotals`, applied to
each step `processThought` appends) raises `totalThoughts` to
`thoughtNumber` when `thoughtNumber > totalThoughts` — leaving every other
field unchanged — and leaves the step entirely unchanged when
`thoughtNumber ≤ totalThoughts`. -/
theorem C2_estimated_total_widening (t : ThoughtData) :
    (t.thoughtNumber > t.totalThoughts →
      (adjustTotals t).totalThoughts = t.thoughtNumber ∧
      (adjustTotals t).thought = t.thought ∧
      (adjustTotals t).thoughtNumber = t.thoughtNumber ∧
      (adjustTotals t).nextThoughtNeeded = t.nextThoughtNeeded) ∧
    (t.thoughtNumber ≤ t.totalThoughts → adjustTotals t = t) := by
  constructor
  · intro h
    unfold adjustTotals
    rw [if_pos h]
    exact ⟨rfl, rfl, rfl, rfl⟩
  · intro h
    unfold adjustTotals
    rw [if_neg (not_lt.mpr h)]

/-- Witness for C2 at the concrete steps of the spec scenario: index 4
against estimate 3 widens to 4; index 2 against estimate 3 is unchanged. -/
theorem C2_estimated_total_widening_witness :
    (adjustTotals ⟨"C", 4, 3, false, none, none, none, none, none⟩).totalThoughts = 4 ∧
    adjustTotals ⟨"B", 2, 3, true, none, none, none, none, none⟩ =
      ⟨"B", 2, 3, true, none, none, none, none, none⟩ :=
  ⟨((C2_estimated_total_widening ⟨"C", 4, 3, false, none, none, none, none, none⟩).1
      (by decide)).1,
   (C2_estimated_total_widening ⟨"B", 2, 3, true, none, none, none, none, none⟩).2
      (by decide)⟩

/-! Claim C4: store failure and pending-receipt semantics. -/

/-- Claim C4: for every store of a non-empty batch, a failed or timed-out
remote write (an `.error` outcome, caught at gateway lines 249-256) makes
`storeSessionJSONL` RETURN `{success: false, key}` with the derived key
still reported — it is a total function, so nothing is raised — and an
accepted write with no transaction receipt (`.ok none`, gateway lines
270-277) returns `{success: true, key}` with `txHash` undefined. -/
theorem C4_store_failure_and_pending_receipt (pref : String) (tsMs : Nat)
    (buf : List EnhancedThought) (h : buf ≠ []) :
    (∀ e, (storeSessionJSONL pref tsMs (.error e) buf).result =
        some { txHash := none, success := false, key := mkKey pref tsMs }) ∧
    (storeSessionJSONL pref tsMs (.ok none) buf).result =
        some { txHash := none, success := true, key := mkKey pref tsMs } := by
  have hne : buf.isEmpty = false := by
    cases buf with
    | nil => exact absurd rfl h
    | cons a l => rfl
  constructor
  · intro e
    simp [storeSessionJSONL, hne]
  · simp [storeSessionJSONL, hne]

/-- A sample buffered thought used by concrete witnesses. -/
def sampleEnhanced : EnhancedThought :=
  { st := { data := ⟨"A", 1, 3, false, none, none, none, none, none⟩
            sessionId := "session-1" }
    timestamp := 5, storedAt := "t", query := none, result := none }

/-- Witness for C4 on a concrete one-thought batch. -/
theorem C4_store_failure_witness :
    ([sampleEnhanced] ≠ ([] : List EnhancedThought)) ∧
    (storeSessionJSONL "sequential-thinking-" 7 (.error "timeout") [sampleEnhanced]).result =
      some { txHash := none, success := false
             key := "sequential-thinking-7-session.jsonl" } ∧
    (storeSessionJSONL "sequential-thinking-" 7 (.ok none) [sampleEnhanced]).result =
      some { txHash := none, success := true
             key := "sequential-thinking-7-session.jsonl" } := by
  have h := C4_store_failure_and_pending_receipt "sequential-thinking-" 7
    [sampleEnhanced] (by simp)
  refine ⟨by simp, ?_, ?_⟩
  · have := h.1 "timeout"
    rw [this]; rfl
  · have := h.2
    rw [this]; rfl

/-! Claim C9: serializer line count and placeholder substitution. -/

theorem placeholderText_ne (i : Nat) : placeholderText i ≠ "" := by
  intro h
  have hl := congrArg String.length h
  rw [placeholderText, String.length_append, String.length_append] at hl
  have h1 : ("Thought " : String).length = 8 := rfl
  have h2 : (" (content missing)" : String).length = 18 := rfl
  have h3 : ("" : String).length = 0 := rfl
  omega

/-- Claim C9: for every batch of N buffered steps, the serialized payload
is the newline-join of exactly N `stringify` lines (one per step, in
order); a step whose text is empty is replaced at its position by the
placeholder — a non-empty string embedding the step's 1-based position —
and every step with non-empty text is serialized unchanged. -/
theorem C9_serializer_lines (stringify : EnhancedThought → String)
    (buf : List EnhancedThought) :
    jsonlData stringify buf =
      String.intercalate "\n" ((validatedThoughts buf).map stringify) ∧
    ((validatedThoughts buf).map stringify).length = buf.length ∧
    (∀ (i : Nat) (t : EnhancedThought), buf[i]? = some t →
      t.st.data.thought = "" →
      (validatedThoughts buf)[i]? =
        some { t with st := { t.st with data :=
                 { t.st.data with thought := placeholderText i } } } ∧
      placeholderText i ≠ "" ∧
      ∃ pre post, placeholderText i = (pre ++ toString (i + 1)) ++ post) ∧
    (∀ (i : Nat) (t : EnhancedThought), buf[i]? = some t →
      t.st.data.thought ≠ "" →
      (validatedThoughts buf)[i]? = some t) := by
  refine ⟨rfl, ?_, ?_, ?_⟩
  · rw [List.length_map]
    exact mapWithIndex_length fixThoughtText 0 buf
  · intro i t hi hempty
    refine ⟨?_, placeholderText_ne i, "Thought ", " (content missing)", rfl⟩
    rw [validatedThoughts, mapWithIndex_getElem? fixThoughtText 0 buf i, hi]
    simp only [Option.map_some', Nat.zero_add]
    rw [fixThoughtText, if_pos hempty]
  · intro i t hi hne
    rw [validatedThoughts, mapWithIndex_getElem? fixThoughtText 0 buf i, hi]
    simp only [Option.map_some', Nat.zero_add]
    rw [fixThoughtText, if_neg hne]

/-- A buffered thought with empty text, used by concrete witnesses. -/
def emptyTextEnhanced : EnhancedThought :=
  { st := { data := ⟨"", 2, 3, true, none, none, none, none, none⟩
            sessionId := "session-1" }
    timestamp := 5, storedAt := "t", query := none, result := none }

/-- Witness for C9 on a concrete two-step batch whose first step has empty
text: two lines come out, position 1 gets the placeholder, position 2 is
untouched. -/
theorem C9_serializer_lines_witness :
    ((validatedThoughts [emptyTextEnhanced, sampleEnhanced]).map
        (fun _ => "line")).length = 2 ∧
    (validatedThoughts [emptyTextEnhanced, sampleEnhanced])[0]? =
      some { emptyTextEnhanced with st := { emptyTextEnhanced.st with data :=
               { emptyTextEnhanced.st.data with thought := placeholderText 0 } } } ∧
    placeholderText 0 ≠ "" ∧
    (validatedThoughts [emptyTextEnhanced, sampleEnhanced])[1]? =
      some sampleEnhanced := by
  have h := C9_serializer_lines (fun _ => "line") [emptyTextEnhanced, sampleEnhanced]
  obtain ⟨h0, hpl, _⟩ := h.2.2.1 0 emptyTextEnhanced rfl rfl
  exact ⟨h.2.1, h0, hpl, h.2.2.2 1 sampleEnhanced rfl (by simp [sampleEnhanced])⟩

/-! Claim C10: the gateway buffer is replaced, then cleared or retained. -/

/-- Claim C10: for every `storeSession` call, the pending buffer is
entirely replaced by the (enhanced) incoming batch — the result and
post-state are independent of whatever was pending before, so prior
thoughts are discarded, never merged — and afterwards the buffer is empty
whenever the write was accepted, while a failed write leaves the buffer
holding exactly the enhanced incoming batch (same length as the batch). -/
theorem C10_store_session_buffer (pref : String) (nowMs : Nat)
    (storedAtStr : String) (tsMs : Nat) (qi : QueryInfo)
    (thoughts : List SessionThought)
    (addOutcome : Except String (Option String))
    (buf buf' : List EnhancedThought) :
    (storeSession pref nowMs storedAtStr tsMs qi thoughts addOutcome buf =
       storeSession pref nowMs storedAtStr tsMs qi thoughts addOutcome buf') ∧
    (∀ txOpt, addOutcome = .ok txOpt →
       (storeSession pref nowMs storedAtStr tsMs qi thoughts addOutcome buf).buffer
         = []) ∧
    (∀ e, addOutcome = .error e →
       (storeSession pref nowMs storedAtStr tsMs qi thoughts addOutcome buf).buffer
         = enhanceBatch nowMs storedAtStr qi thoughts ∧
       (storeSession pref nowMs storedAtStr tsMs qi thoughts addOutcome buf).buffer.length
         = thoughts.length) := by
  refine ⟨rfl, ?_, ?_⟩
  · intro txOpt h
    subst h
    unfold storeSession storeSessionJSONL
    cases hb : (enhanceBatch nowMs storedAtStr qi thoughts).isEmpty with
    | true =>
        simp only [hb, if_true]
        exact List.isEmpty_iff.mp hb
    | false =>
        cases txOpt <;> simp [hb]
  · intro e h
    subst h
    constructor
    · unfold storeSession storeSessionJSONL
      cases hb : (enhanceBatch nowMs storedAtStr qi thoughts).isEmpty with
      | true => simp [hb]
      | false => simp [hb]
    · unfold storeSession storeSessionJSONL
      cases hb : (enhanceBatch nowMs storedAtStr qi thoughts).isEmpty with
      | true =>
          simp only [hb, if_true]
          have hnil : enhanceBatch nowMs storedAtStr qi thoughts = [] :=
            List.isEmpty_iff.mp hb
          have hlen : thoughts.length = 0 := by
            have hm := mapWithIndex_length (enhanceThought nowMs storedAtStr qi) 0 thoughts
            rw [show mapWithIndex (enhanceThought nowMs storedAtStr qi) 0 thoughts =
                  enhanceBatch nowMs storedAtStr qi thoughts from rfl, hnil] at hm
            simpa using hm.symm
          simp [hlen, hnil]
      | false =>
          simp only [hb, if_false, Bool.false_eq_true]
          exact mapWithIndex_length (enhanceThought nowMs storedAtStr qi) 0 thoughts

/-- Witness for C10 on a concrete batch against two different prior
buffers, for both an accepted and a failed write. -/
theorem C10_store_session_buffer_witness :
    (storeSession "p" 1 "t" 2 ⟨none, none, none⟩
        [⟨⟨"A", 1, 1, false, none, none, none, none, none⟩, "sid"⟩]
        (.ok (some "0xabc")) [sampleEnhanced] =
     storeSession "p" 1 "t" 2 ⟨none, none, none⟩
        [⟨⟨"A", 1, 1, false, none, none, none, none, none⟩, "sid"⟩]
        (.ok (some "0xabc")) []) ∧
    (storeSession "p" 1 "t" 2 ⟨none, none, none⟩
        [⟨⟨"A", 1, 1, false, none, none, none, none, none⟩, "sid"⟩]
        (.ok (some "0xabc")) [sampleEnhanced]).buffer = [] ∧
    (storeSession "p" 1 "t" 2 ⟨none, none, none⟩
        [⟨⟨"A", 1, 1, false, none, none, none, none, none⟩, "sid"⟩]
        (.error "timeout") [sampleEnhanced]).buffer.length = 1 := by
  have h1 := C10_store_session_buffer "p" 1 "t" 2 ⟨none, none, none⟩
    [⟨⟨"A", 1, 1, false, none, none, none, none, none⟩, "sid"⟩]
    (.ok (some "0xabc")) [sampleEnhanced] []
  have h2 := C10_store_session_buffer "p" 1 "t" 2 ⟨none, none, none⟩
    [⟨⟨"A", 1, 1, false, none, none, none, none, none⟩, "sid"⟩]
    (.error "timeout") [sampleEnhanced] []
  exact ⟨h1.1, h1.2.1 (some "0xabc") rfl, (h2.2.2 "timeout" rfl).2⟩

/-! Claim C8: validator check order and acceptance. -/

/-- Input with every required field present and of the type C8 demands —
`thoughtNumber` is the (present, numeric) number 0. -/
def rawZeroIndex : RawInput :=
  { thought := some (.str "step"), thoughtNumber := some (.num 0)
    totalThoughts := some (.num 3), nextThoughtNeeded := some (.boolVal true)
    isRevision := none, revisesThought := none, branchFromThought := none
    branchId := none, needsMoreThoughts := none }

/-- Counterexample to C8 as stated: on `rawZeroIndex` every required field
is present and of the demanded type (`thoughtNumber` is the number 0), so
under the claim's checks — presence plus type only — validation should not
fail on `thoughtNumber`; yet the source's falsiness test
`!data.thoughtNumber` rejects the number 0 and the validator throws the
`thoughtNumber` error. -/
theorem C8_counterexample :
    isStr rawZeroIndex.thought = true ∧
    isNum rawZeroIndex.thoughtNumber = true ∧
    isNum rawZeroIndex.totalThoughts = true ∧
    isBool rawZeroIndex.nextThoughtNeeded = true ∧
    validateThoughtData rawZeroIndex =
      .error "Invalid thoughtNumber: must be a number" :=
  ⟨rfl, rfl, rfl, rfl, rfl⟩

/-- Claim C8 (amended): the validator is a pure function that either
returns a ThoughtStep or fails naming the first offending field, checked
in this order — `text` present, a string AND truthy (non-empty); `index`
present, numeric AND truthy (non-zero); `estimatedTotal` present, numeric
AND truthy (non-zero); `continuation` present and a boolean (no truthiness
test) — and on success the optional fields are passed through unchanged
with no cross-field validation. -/
theorem C8_validator_first_offending (d : RawInput) :
    ((truthy d.thought && isStr d.thought) = false →
       validateThoughtData d = .error "Invalid thought: must be a string") ∧
    ((truthy d.thought && isStr d.thought) = true →
     (truthy d.thoughtNumber && isNum d.thoughtNumber) = false →
       validateThoughtData d = .error "Invalid thoughtNumber: must be a number") ∧
    ((truthy d.thought && isStr d.thought) = true →
     (truthy d.thoughtNumber && isNum d.thoughtNumber) = true →
     (truthy d.totalThoughts && isNum d.totalThoughts) = false →
       validateThoughtData d = .error "Invalid totalThoughts: must be a number") ∧
    ((truthy d.thought && isStr d.thought) = true →
     (truthy d.thoughtNumber && isNum d.thoughtNumber) = true →
     (truthy d.totalThoughts && isNum d.totalThoughts) = true →
     isBool d.nextThoughtNeeded = false →
       validateThoughtData d = .error "Invalid nextThoughtNeeded: must be a boolean") ∧
    ((truthy d.thought && isStr d.thought) = true →
     (truthy d.thoughtNumber && isNum d.thoughtNumber) = true →
     (truthy d.totalThoughts && isNum d.totalThoughts) = true →
     isBool d.nextThoughtNeeded = true →
       validateThoughtData d =
         .ok { thought := strVal d.thought
               thoughtNumber := numVal d.thoughtNumber
               totalThoughts := numVal d.totalThoughts
               nextThoughtNeeded := boolValOf d.nextThoughtNeeded
               isRevision := d.isRevision
               revisesThought := d.revisesThought
               branchFromThought := d.branchFromThought
               branchId := d.branchId
               needsMoreThoughts := d.needsMoreThoughts }) := by
  refine ⟨?_, ?_, ?_, ?_, ?_⟩
  · intro h1
    unfold validateThoughtData
    rw [h1]
    rfl
  · intro h1 h2
    unfold validateThoughtData
    rw [h1, h2]
    rfl
  · intro h1 h2 h3
    unfold validateThoughtData
    rw [h1, h2, h3]
    rfl
  · intro h1 h2 h3 h4
    unfold validateThoughtData
    rw [h1, h2, h3, h4]
    rfl
  · intro h1 h2 h3 h4
    unfold validateThoughtData
    rw [h1, h2, h3, h4]
    rfl

/-- A fully valid raw input, used by concrete witnesses. -/
def rawValidA : RawInput :=
  { thought := some (.str "A"), thoughtNumber := some (.num 1)
    totalThoughts := some (.num 3), nextThoughtNeeded := some (.boolVal true)
    isRevision := none, revisesThought := none, branchFromThought := none
    branchId := none, needsMoreThoughts := none }

/-- Witness for the amended C8: a missing `thought` yields the first error;
the fully valid `rawValidA` is accepted with its fields passed through. -/
theorem C8_validator_first_offending_witness :
    validateThoughtData { rawValidA with thought := none } =
      .error "Invalid thought: must be a string" ∧
    validateThoughtData rawValidA =
      .ok { thought := "A", thoughtNumber := 1, totalThoughts := 3
            nextThoughtNeeded := true, isRevision := none
            revisesThought := none, branchFromThought := none
            branchId := none, needsMoreThoughts := none } :=
  ⟨(C8_validator_first_offending { rawValidA with thought := none }).1 rfl,
   (C8_validator_first_offending rawValidA).2.2.2.2 rfl rfl rfl rfl⟩

/-! Claim C5: per-line fault isolation on retrieval. -/

/-- Claim C5: for every existing record (a non-empty content string), `get`
returns a result whose `stepCount` equals the number of newline-separated
lines of the (trimmed) record — for every record the serializer writes the
trim is the identity, so this is the record's line count; each line that
parses is held at its position, each line that fails to parse is replaced
by the error placeholder naming its 1-based position; and `get` returns
null when the object does not exist or the fetch fails (content `none`). -/
theorem C5_get_session_parsing {α : Type} (parse : String → Option α)
    (tsOf : α → Option Nat) (key : String) (c : String)
    (hne : ¬(c = "")) :
    (∃ r, getSessionObject parse tsOf key (some c) = some r ∧
       r.thoughtCount = (splitTrimmedLines c).length ∧
       (∀ (i : Nat) (line : String), (splitTrimmedLines c)[i]? = some line →
          r.thoughts[i]? = some (match parse line with
            | some v => .ok v
            | none => .badLine ("Invalid JSON at line " ++ toString (i + 1))
                        (line.data.take 50).asString))) ∧
    getSessionObject parse tsOf key none = none := by
  constructor
  · have hstep : getSessionObject parse tsOf key (some c) =
        if c = "" then none
        else
          some { key := key
                 thoughts := parseLines parse (splitTrimmedLines c)
                 thoughtCount := (parseLines parse (splitTrimmedLines c)).length
                 createdAt :=
                   match (parseLines parse (splitTrimmedLines c)).head? with
                   | some (.ok v) => tsOf v
                   | _ => none } := rfl
    have hobj : getSessionObject parse tsOf key (some c) =
        some { key := key
               thoughts := parseLines parse (splitTrimmedLines c)
               thoughtCount := (parseLines parse (splitTrimmedLines c)).length
               createdAt :=
                 match (parseLines parse (splitTrimmedLines c)).head? with
                 | some (.ok v) => tsOf v
                 | _ => none } := by
      rw [hstep, if_neg hne]
    refine ⟨_, hobj, ?_, ?_⟩
    · show (parseLines parse (splitTrimmedLines c)).length =
        (splitTrimmedLines c).length
      unfold parseLines
      exact mapWithIndex_length _ 0 _
    · intro i line hi
      show (parseLines parse (splitTrimmedLines c))[i]? = _
      unfold parseLines
      rw [mapWithIndex_getElem? _ 0 _ i, hi]
      simp only [Option.map_some', Nat.zero_add]
  · rfl

/-- A concrete line parser for the C5 witness: only the line `alpha`
parses (to 5); everything else fails. -/
def parseAlpha : String → Option Nat :=
  fun s => if s = "alpha" then some 5 else none

/-- Witness for C5 on the two-line record `alpha\nbeta` whose second line
is corrupt: stepCount is 2, position 1 parses, position 2 holds the
error placeholder, and a missing object gives null. -/
theorem C5_get_session_parsing_witness :
    (getSessionObject parseAlpha (fun _ => none) "k" (some "alpha\nbeta")).map
        SessionObjectResult.thoughtCount = some 2 ∧
    (getSessionObject parseAlpha (fun _ => none) "k" (some "alpha\nbeta")).map
        (fun r => r.thoughts[0]?) = some (some (.ok 5)) ∧
    (getSessionObject parseAlpha (fun _ => none) "k" (some "alpha\nbeta")).map
        (fun r => r.thoughts[1]?) =
      some (some (.badLine "Invalid JSON at line 2" "beta")) ∧
    getSessionObject parseAlpha (fun _ => none) "k" none = none := by
  obtain ⟨⟨r, hr, hc, hlines⟩, hnone⟩ :=
    C5_get_session_parsing parseAlpha (fun _ => none) "k" "alpha\nbeta"
      (by decide)
  have h0 := hlines 0 "alpha" (by decide)
  have h1 := hlines 1 "beta" (by decide)
  rw [hr]
  refine ⟨?_, ?_, ?_, hnone⟩
  · simp only [Option.map_some']
    rw [hc]
    decide
  · simp only [Option.map_some']
    rw [h0]
    decide
  · simp only [Option.map_some']
    rw [h1]
    decide

/-! Claim C7: listing sessions — filter, error recovery and timestamp
derivation. -/

/-- An object whose state metadata already carries a timestamp (999) and
whose key embeds a different epoch segment (555). -/
def objOverwrite : QueryObj :=
  { key := "sequential-thinking-555-session.jsonl"
    stateMeta := some { timestamp := some 999, thoughtCount := some 3 }
    stateSize := some 10 }

set_option maxRecDepth 4000 in
/-- Counterexample to C7 as stated: the claim says the capture timestamp
is derived from the key's epoch segment ONLY when the object's metadata
does not already carry a timestamp; but on `objOverwrite`, whose metadata
already carries timestamp 999, the code assigns the key-derived 555 over
it (gateway lines 412-417 run after the metadata copy). -/
theorem C7_counterexample :
    objOverwrite.stateMeta =
      some { timestamp := some 999, thoughtCount := some 3 } ∧
    (listAllSessionObjects "sequential-thinking-" extractEpoch
        (.ok [objOverwrite])).map (fun o => o.metadata.timestamp) =
      [some 555] := by
  constructor
  · rfl
  · decide

theorem listAll_key_filter (pref : String) (ex : String → Option Nat) :
    ∀ objs : List QueryObj,
      ((objs.map (mapQueryObj pref ex)).filter
          (fun o => strContains o.key pref)).map RecallObject.key =
        (objs.map QueryObj.key).filter (fun k => strContains k pref)
  | [] => rfl
  | o :: rest => by
      have hk : (mapQueryObj pref ex o).key = o.key := rfl
      simp only [List.map_cons, List.filter_cons, hk]
      cases h : strContains o.key pref with
      | true => simp [h, hk, listAll_key_filter pref ex rest]
      | false => simp [h, hk, listAll_key_filter pref ex rest]

/-- Claim C7 (amended): `list` never raises (it is a total function); a
remote query error yields the empty array; on success it returns exactly
the objects whose key contains the configured log prefix, in order; and
for such an object the capture timestamp is the key's embedded epoch
segment WHENEVER one exists — overwriting any timestamp the metadata
already carries — falling back to the metadata timestamp (or none) only
when the key embeds no epoch segment. -/
theorem C7_list_sessions (pref : String) :
    (∀ e, listAllSessionObjects pref extractEpoch (.error e) = []) ∧
    (∀ objs, (listAllSessionObjects pref extractEpoch (.ok objs)).map
        RecallObject.key =
      (objs.map QueryObj.key).filter (fun k => strContains k pref)) ∧
    (∀ obj : QueryObj, strContains obj.key pref = true →
       (mapQueryObj pref extractEpoch obj).metadata.timestamp =
         (match extractEpoch obj.key with
          | some ts => some ts
          | none =>
              (obj.stateMeta.getD { timestamp := none, thoughtCount := none }).timestamp)) := by
  refine ⟨fun e => rfl, ?_, ?_⟩
  · intro objs
    exact listAll_key_filter pref extractEpoch objs
  · intro obj h
    unfold mapQueryObj
    simp only [h, if_true]
    cases hm : obj.stateMeta with
    | none =>
        cases he : extractEpoch obj.key with
        | none => simp [he]
        | some ts => simp [he]
    | some m =>
        cases he : extractEpoch obj.key with
        | none => simp [he]
        | some ts => simp [he]

set_option maxRecDepth 4000 in
/-- Witness for the amended C7: a remote error yields `[]`; of two
objects only the one whose key contains the prefix survives, in order;
and the epoch segment 555 overrides the metadata timestamp 999. -/
theorem C7_list_sessions_witness :
    listAllSessionObjects "sequential-thinking-" extractEpoch
        (.error "rpc down") = [] ∧
    (listAllSessionObjects "sequential-thinking-" extractEpoch
        (.ok [objOverwrite, { key := "other", stateMeta := none, stateSize := none }])).map
        RecallObject.key = ["sequential-thinking-555-session.jsonl"] ∧
    (mapQueryObj "sequential-thinking-" extractEpoch objOverwrite).metadata.timestamp =
      some 555 := by
  have h := C7_list_sessions "sequential-thinking-"
  refine ⟨h.1 "rpc down", ?_, ?_⟩
  · have := h.2.1 [objOverwrite, { key := "other", stateMeta := none, stateSize := none }]
    rw [this]
    decide
  · have := h.2.2 objOverwrite (by decide)
    rw [this]
    decide

/-! Claim C6: the dispatcher catches everything; error flags per branch. -/

/-- A concrete environment for dispatcher witnesses: the gateway is not
initialized and forced initialization throws. -/
def envDefault : StoreEnv :=
  { nowMs := 1000, storedAtStr := "2026-01-01T00:00:00Z", tsMs := 1000
    addOutcome := .ok (some "0xabc"), freshId := "session-new"
    pref := "sequential-thinking-" }

/-- Dispatcher environment whose forced initialization fails. -/
def deInitFail : DispatchEnv :=
  { procEnv := envDefault
    isInit := false
    initOutcome := .error "boom"
    bucketAddress := none
    queryOutcome := .ok []
    getContent := none
    parse := fun _ => none }

/-- A concrete initial server state. -/
def sInit : ServerState :=
  { thoughtHistory := [], branches := [], currentQuery := none
    currentSessionId := "session-old" }

/-- Counterexample to C6 as stated: when the status-check branch catches
an initialization error it returns its structured payload WITHOUT setting
the error flag (server lines 564-575 return no `isError`), whereas the
claim says every branch returns its error payload with the error flag
set.  (The other error branches do set the flag.) -/
theorem C6_counterexample :
    (handleCallTool deInitFail .recallstatus sInit []).1 =
      { payload := .statusErr "boom", isError := false } := rfl

/-- Claim C6 (amended): the dispatcher never lets an exception escape —
every branch's errors are caught and converted into a structured response
for the transport (the embedding is a total function; the exceptional
branch below lands in the outer catch).  The step-processing branch
(validation failure), the list-sessions and get-session branches, the
unknown-tool fallback and the outer catch all set the error flag on their
error payloads; the status-check error branch alone returns its
structured error payload WITHOUT the flag. -/
theorem C6_dispatcher_catches (de : DispatchEnv) (s : ServerState)
    (g : List EnhancedThought) :
    (∀ e, de.isInit = false → de.initOutcome = .error e →
       handleCallTool de .recallstatus s g =
         ({ payload := .statusErr e, isError := false }, s, g) ∧
       (∀ b, handleCallTool de (.listsessions b) s g =
         ({ payload := .sessionsErr e, isError := true }, s, g)) ∧
       (∀ k, ¬(k = "") → handleCallTool de (.getsession (some k)) s g =
         ({ payload := .getErr e, isError := true }, s, g))) ∧
    (handleCallTool de (.getsession none) s g =
       ({ payload := .getErr "Session key is required", isError := true }, s, g)) ∧
    (∀ name, handleCallTool de (.unknown name) s g =
       ({ payload := .unknownTool name, isError := true }, s, g)) ∧
    (∀ args q, isStr args.thought = false →
       handleCallTool de (.seqthinking args q) s g =
         ({ payload := .outerErr
              "Error processing request: Cannot read properties of undefined (reading substring)"
            isError := true }, s, g)) ∧
    (∀ args q msg, isStr args.thought = true →
       validateThoughtData args = .error msg →
       (handleCallTool de (.seqthinking args q) s g).1 =
         { payload := .processErr msg, isError := true }) := by
  refine ⟨?_, rfl, fun name => rfl, ?_, ?_⟩
  · intro e hinit houtcome
    have hens : ensureInitTool de = .error e := by
      unfold ensureInitTool
      rw [hinit, if_neg (by simp), houtcome]
    refine ⟨?_, fun b => ?_, fun k hk => ?_⟩
    · simp only [handleCallTool, dispatchBody, hens]
    · simp only [handleCallTool, dispatchBody, hens]
    · simp only [handleCallTool, dispatchBody, hens, if_neg hk]
  · intro args q hstr
    simp only [handleCallTool, dispatchBody, hstr, Bool.not_false, if_true]
    rfl
  · intro args q msg hstr hval
    simp only [handleCallTool, dispatchBody, hstr, Bool.not_true,
      Bool.false_eq_true, if_false, processThought, hval]

/-- Witness for the amended C6 at concrete inputs: the failing-init
environment exercises the status/list/get error branches, a missing key,
an unknown tool, a non-string `thought`, and a validation failure. -/
theorem C6_dispatcher_catches_witness :
    (handleCallTool deInitFail (.listsessions true) sInit []).1 =
      { payload := .sessionsErr "boom", isError := true } ∧
    (handleCallTool deInitFail (.getsession (some "k")) sInit []).1 =
      { payload := .getErr "boom", isError := true } ∧
    (handleCallTool deInitFail (.getsession none) sInit []).1 =
      { payload := .getErr "Session key is required", isError := true } ∧
    (handleCallTool deInitFail (.unknown "mystery") sInit []).1 =
      { payload := .unknownTool "mystery", isError := true } ∧
    (handleCallTool deInitFail (.seqthinking { rawValidA with thought := none } none) sInit []).1 =
      { payload := .outerErr
          "Error processing request: Cannot read properties of undefined (reading substring)"
        isError := true } ∧
    (handleCallTool deInitFail
        (.seqthinking { rawValidA with thoughtNumber := none } none) sInit []).1 =
      { payload := .processErr "Invalid thoughtNumber: must be a number"
        isError := true } := by
  have h := C6_dispatcher_catches deInitFail sInit []
  obtain ⟨hinit, hkey, hunk, hsub, hval⟩ := h
  obtain ⟨_, hlist, hget⟩ := hinit "boom" rfl rfl
  refine ⟨?_, ?_, ?_, ?_, ?_, ?_⟩
  · rw [hlist true]
  · rw [hget "k" (by simp)]
  · rw [hkey]
  · rw [hunk "mystery"]
  · rw [hsub { rawValidA with thought := none } none rfl]
  · exact hval { rawValidA with thoughtNumber := none } none
      "Invalid thoughtNumber: must be a number" rfl rfl

/-! Claim C1: terminal-step flush, clear and fresh id. -/

theorem appendToHistory_thoughtHistory (v : ThoughtData) (s : ServerState) :
    (appendToHistory v s).thoughtHistory = s.thoughtHistory ++ [v] := rfl

theorem appendToHistory_currentSessionId (v : ThoughtData) (s : ServerState) :
    (appendToHistory v s).currentSessionId = s.currentSessionId := rfl

theorem append_singleton_isEmpty (l : List α) (a : α) :
    (l ++ [a]).isEmpty = false := by
  cases l <;> rfl

theorem listIsEmpty_map (f : α → β) (l : List α) :
    (l.map f).isEmpty = l.isEmpty := by
  cases l <;> rfl

theorem mapWithIndex_isEmpty (f : Nat → α → β) (k : Nat) (l : List α) :
    (mapWithIndex f k l).isEmpty = l.isEmpty := by
  cases l <;> rfl

/-- Claim C1 (amended): a step arriving with `continuation = false` into a
session triggers the gateway store call exactly once; when the store
result reports success the in-memory session (history, branches, query) is
destroyed and replaced by a new empty session under a freshly generated
identifier, but when the write fails the session is retained — the history
keeps all steps (including the terminal one) and the session id is
unchanged — with the failure reported as `{success: false, key}`. -/
theorem C1_terminal_flush (env : StoreEnv) (raw : RawInput)
    (q : Option String) (s : ServerState) (g : List EnhancedThought)
    (v : ThoughtData) (hv : validateThoughtData raw = .ok v)
    (ht : v.nextThoughtNeeded = false) :
    (processThought env raw q s g).storeCalls = 1 ∧
    (∀ txOpt, env.addOutcome = .ok txOpt →
       (processThought env raw q s g).state = clearSession env.freshId ∧
       ∃ r, (processThought env raw q s g).storeResult = some r ∧
         r.success = true) ∧
    (∀ e, env.addOutcome = .error e →
       (processThought env raw q s g).state.currentSessionId =
         s.currentSessionId ∧
       (processThought env raw q s g).state.thoughtHistory.length =
         s.thoughtHistory.length + 1 ∧
       (processThought env raw q s g).storeResult =
         some { txHash := none, success := false
                key := mkKey env.pref env.tsMs }) := by
  have hnext : (adjustTotals v).nextThoughtNeeded = false := by
    rw [adjustTotals_next]; exact ht
  obtain ⟨nowMs, sa, tsMs, ao, fid, pref⟩ := env
  cases ao with
  | error e =>
    refine ⟨?_, ?_, ?_⟩
    · simp [processThought, hv, hnext, updateBranches_thoughtHistory,
        appendToHistory_thoughtHistory, append_singleton_isEmpty,
        storeSession, storeSessionJSONL, enhanceBatch, mapWithIndex_isEmpty,
        listIsEmpty_map]
    · intro txOpt h
      exact absurd h (by simp)
    · intro e' h
      injection h with he
      subst he
      refine ⟨?_, ?_, ?_⟩
      · simp [processThought, hv, hnext, updateBranches_thoughtHistory,
          appendToHistory_thoughtHistory, append_singleton_isEmpty,
          storeSession, storeSessionJSONL, enhanceBatch, mapWithIndex_isEmpty,
          listIsEmpty_map, updateBranches_currentSessionId,
          appendToHistory_currentSessionId, fixQuery_currentSessionId]
      · simp [processThought, hv, hnext, updateBranches_thoughtHistory,
          appendToHistory_thoughtHistory, append_singleton_isEmpty,
          storeSession, storeSessionJSONL, enhanceBatch, mapWithIndex_isEmpty,
          listIsEmpty_map, fixQuery_thoughtHistory]
      · simp [processThought, hv, hnext, updateBranches_thoughtHistory,
          appendToHistory_thoughtHistory, append_singleton_isEmpty,
          storeSession, storeSessionJSONL, enhanceBatch, mapWithIndex_isEmpty,
          listIsEmpty_map]
  | ok txOpt =>
    refine ⟨?_, ?_, ?_⟩
    · cases txOpt <;>
        simp [processThought, hv, hnext, updateBranches_thoughtHistory,
          appendToHistory_thoughtHistory, append_singleton_isEmpty,
          storeSession, storeSessionJSONL, enhanceBatch, mapWithIndex_isEmpty,
          listIsEmpty_map]
    · intro txOpt2 h
      have he : txOpt = txOpt2 := by injection h
      subst he
      cases txOpt with
      | none =>
        constructor
        · simp [processThought, hv, hnext, updateBranches_thoughtHistory,
            appendToHistory_thoughtHistory, append_singleton_isEmpty,
            storeSession, storeSessionJSONL, enhanceBatch, mapWithIndex_isEmpty,
            listIsEmpty_map]
        · refine ⟨{ txHash := none, success := true, key := mkKey pref tsMs }, ?_, rfl⟩
          simp [processThought, hv, hnext, updateBranches_thoughtHistory,
            appendToHistory_thoughtHistory, append_singleton_isEmpty,
            storeSession, storeSessionJSONL, enhanceBatch, mapWithIndex_isEmpty,
            listIsEmpty_map]
      | some tx =>
        constructor
        · simp [processThought, hv, hnext, updateBranches_thoughtHistory,
            appendToHistory_thoughtHistory, append_singleton_isEmpty,
            storeSession, storeSessionJSONL, enhanceBatch, mapWithIndex_isEmpty,
            listIsEmpty_map]
        · refine ⟨{ txHash := some tx, success := true, key := mkKey pref tsMs }, ?_, rfl⟩
          simp [processThought, hv, hnext, updateBranches_thoughtHistory,
            appendToHistory_thoughtHistory, append_singleton_isEmpty,
            storeSession, storeSessionJSONL, enhanceBatch, mapWithIndex_isEmpty,
            listIsEmpty_map]
    · intro e h
      exact absurd h (by simp)

/-- Environment whose remote write fails. -/
def envFail : StoreEnv :=
  { nowMs := 1000, storedAtStr := "2026-01-01T00:00:00Z", tsMs := 1000
    addOutcome := .error "network failure", freshId := "session-new"
    pref := "sequential-thinking-" }

/-- A terminal raw step (`nextThoughtNeeded` false). -/
def rawTerminal : RawInput :=
  { thought := some (.str "C"), thoughtNumber := some (.num 4)
    totalThoughts := some (.num 3), nextThoughtNeeded := some (.boolVal false)
    isRevision := none, revisesThought := none, branchFromThought := none
    branchId := none, needsMoreThoughts := none }

/-- A non-empty session awaiting its terminal step. -/
def statePrior : ServerState :=
  { thoughtHistory := [⟨"A", 1, 3, true, none, none, none, none, none⟩]
    branches := [], currentQuery := none, currentSessionId := "session-old" }

/-- Counterexample to C1 as stated: a terminal step into a non-empty
session whose store fails does trigger the store exactly once, but the
in-memory session is NOT destroyed (the history still holds both steps)
and no new identifier is minted — `clearSession` only runs when the store
result reports success (server lines 252-256). -/
theorem C1_counterexample :
    (processThought envFail rawTerminal none statePrior []).storeCalls = 1 ∧
    (processThought envFail rawTerminal none statePrior []).state.thoughtHistory.length = 2 ∧
    (processThought envFail rawTerminal none statePrior []).state.currentSessionId =
      "session-old" :=
  ⟨rfl, rfl, rfl⟩

/-- Environment whose remote write is accepted with a receipt. -/
def envOk : StoreEnv :=
  { envFail with addOutcome := .ok (some "0xdeadbeef") }

/-- Witness for the amended C1: with a successful write, the terminal step
stores once, clears to a fresh empty session, and reports success; with a
failing write (the counterexample inputs), the session is retained. -/
theorem C1_terminal_flush_witness :
    (processThought envOk rawTerminal none statePrior []).storeCalls = 1 ∧
    (processThought envOk rawTerminal none statePrior []).state =
      clearSession "session-new" ∧
    (processThought envFail rawTerminal none statePrior []).state.currentSessionId =
      "session-old" := by
  have hok := C1_terminal_flush envOk rawTerminal none statePrior []
    ⟨"C", 4, 3, false, none, none, none, none, none⟩ rfl rfl
  have hfail := C1_terminal_flush envFail rawTerminal none statePrior []
    ⟨"C", 4, 3, false, none, none, none, none, none⟩ rfl rfl
  exact ⟨hok.1, (hok.2.1 (some "0xdeadbeef") rfl).1,
    (hfail.2.2 "network failure" rfl).1⟩

/-! Claim C3: the flushed batch is exactly the appended steps in arrival
order. -/

theorem validate_ok_thought_ne {d : RawInput} {v : ThoughtData}
    (h : validateThoughtData d = .ok v) : v.thought ≠ "" := by
  unfold validateThoughtData at h
  cases h1 : (truthy d.thought && isStr d.thought) with
  | false =>
    rw [h1] at h
    simp at h
  | true =>
    rw [h1] at h
    simp only [Bool.not_true, Bool.false_eq_true, if_false] at h
    have hb : truthy d.thought = true := ((Bool.and_eq_true _ _).mp h1).1
    have hs : isStr d.thought = true := ((Bool.and_eq_true _ _).mp h1).2
    split at h
    · simp at h
    split at h
    · simp at h
    split at h
    · simp at h
    cases hd : d.thought with
    | none => rw [hd] at hs; exact absurd hs (by simp [isStr])
    | some jv =>
      cases jv with
      | str sVal =>
        rw [hd] at hb
        have hsne : sVal ≠ "" := by simpa [truthy] using hb
        injection h with h2
        rw [← h2]
        simpa [strVal, hd] using hsne
      | num n => rw [hd] at hs; exact absurd hs (by simp [isStr])
      | boolVal b => rw [hd] at hs; exact absurd hs (by simp [isStr])
      | nullVal => rw [hd] at hs; exact absurd hs (by simp [isStr])

theorem enhance_map_of_ne (nowMs : Nat) (sa : String) (qi : QueryInfo) :
    ∀ (k : Nat) (ts : List SessionThought),
      (∀ t ∈ ts, t.data.thought ≠ "") →
      mapWithIndex (enhanceThought nowMs sa qi) k ts =
        ts.map (fun t =>
          { st := t, timestamp := nowMs, storedAt := sa
            query := orUndef qi.query, result := orUndef qi.result })
  | _, [], _ => rfl
  | k, t :: rest, h => by
      have h1 : t.data.thought ≠ "" := h t (by simp)
      have ih := enhance_map_of_ne nowMs sa qi (k + 1) rest
        (fun x hx => h x (by simp [hx]))
      simp only [mapWithIndex, List.map_cons, ih]
      unfold enhanceThought
      rw [if_neg h1]

theorem validatedThoughts_id_aux :
    ∀ (k : Nat) (l : List EnhancedThought),
      (∀ e ∈ l, e.st.data.thought ≠ "") →
      mapWithIndex fixThoughtText k l = l
  | _, [], _ => rfl
  | k, e :: rest, h => by
      have h1 : e.st.data.thought ≠ "" := h e (by simp)
      have ih := validatedThoughts_id_aux (k + 1) rest
        (fun x hx => h x (by simp [hx]))
      simp only [mapWithIndex, ih]
      unfold fixThoughtText
      rw [if_neg h1]

theorem storeSessionJSONL_written (pref : String) (tsMs : Nat)
    (ao : Except String (Option String)) (buf : List EnhancedThought)
    (h : buf.isEmpty = false) :
    (storeSessionJSONL pref tsMs ao buf).written = validatedThoughts buf := by
  unfold storeSessionJSONL
  rw [h]
  simp only [Bool.false_eq_true, if_false]
  cases ao with
  | error e => rfl
  | ok txOpt => cases txOpt <;> rfl

theorem map_map_proj (nowMs : Nat) (sa : String) (q r : Option String)
    (sid : String) :
    ∀ l : List ThoughtData,
      ((l.map (fun t => SessionThought.mk t sid)).map
        (fun t => ({ st := t, timestamp := nowMs, storedAt := sa
                     query := q, result := r } : EnhancedThought))).map
        (fun e => e.st.data) = l
  | [] => rfl
  | a :: rest => by
      simp only [List.map_cons]
      rw [map_map_proj nowMs sa q r sid rest]

theorem storeSession_written_proj (pref : String) (nowMs : Nat) (sa : String)
    (tsMs : Nat) (qi : QueryInfo) (sid : String)
    (ao : Except String (Option String)) (g : List EnhancedThought)
    (l : List ThoughtData) (hl : l.isEmpty = false)
    (hne : ∀ t ∈ l, t.thought ≠ "") :
    (storeSession pref nowMs sa tsMs qi
        (l.map (fun t => SessionThought.mk t sid)) ao g).written.map
      (fun e => e.st.data) = l := by
  have hts : ∀ t ∈ l.map (fun t => SessionThought.mk t sid),
      t.data.thought ≠ "" := by
    intro t htm
    obtain ⟨x, hx, rfl⟩ := List.mem_map.mp htm
    exact hne x hx
  have henh : enhanceBatch nowMs sa qi (l.map (fun t => SessionThought.mk t sid)) =
      (l.map (fun t => SessionThought.mk t sid)).map
        (fun t => { st := t, timestamp := nowMs, storedAt := sa
                    query := orUndef qi.query, result := orUndef qi.result }) := by
    unfold enhanceBatch
    exact enhance_map_of_ne nowMs sa qi 0 _ hts
  have hbufne : ((l.map (fun t => SessionThought.mk t sid)).map
      (fun t => ({ st := t, timestamp := nowMs, storedAt := sa
                   query := orUndef qi.query
                   result := orUndef qi.result } : EnhancedThought))).isEmpty = false := by
    rw [listIsEmpty_map, listIsEmpty_map]
    exact hl
  have hvid : validatedThoughts ((l.map (fun t => SessionThought.mk t sid)).map
      (fun t => ({ st := t, timestamp := nowMs, storedAt := sa
                   query := orUndef qi.query
                   result := orUndef qi.result } : EnhancedThought))) =
      (l.map (fun t => SessionThought.mk t sid)).map
        (fun t => ({ st := t, timestamp := nowMs, storedAt := sa
                     query := orUndef qi.query
                     result := orUndef qi.result } : EnhancedThought)) := by
    unfold validatedThoughts
    apply validatedThoughts_id_aux
    intro e he
    obtain ⟨x, hx, rfl⟩ := List.mem_map.mp he
    exact hts x hx
  simp only [storeSession, henh]
  rw [storeSessionJSONL_written _ _ _ _ hbufne, hvid]
  exact map_map_proj nowMs sa (orUndef qi.query) (orUndef qi.result) sid l

theorem processThought_nonterminal (env : StoreEnv) (raw : RawInput)
    (q : Option String) (s : ServerState) (g : List EnhancedThought)
    (v : ThoughtData) (hv : validateThoughtData raw = .ok v)
    (hn : v.nextThoughtNeeded = true) :
    (processThought env raw q s g).state.thoughtHistory =
      s.thoughtHistory ++ [adjustTotals v] ∧
    (processThought env raw q s g).gatewayBuf = g := by
  have hnext : (adjustTotals v).nextThoughtNeeded = true := by
    rw [adjustTotals_next]; exact hn
  constructor
  · simp [processThought, hv, hnext, updateBranches_thoughtHistory,
      appendToHistory_thoughtHistory, fixQuery_thoughtHistory]
  · simp [processThought, hv, hnext]

theorem processThought_terminal_written (env : StoreEnv) (raw : RawInput)
    (q : Option String) (s : ServerState) (g : List EnhancedThought)
    (v : ThoughtData) (hv : validateThoughtData raw = .ok v)
    (ht : v.nextThoughtNeeded = false)
    (hh : ∀ t ∈ s.thoughtHistory, t.thought ≠ "") :
    (processThought env raw q s g).written.map (fun e => e.st.data) =
      s.thoughtHistory ++ [adjustTotals v] := by
  have hnext : (adjustTotals v).nextThoughtNeeded = false := by
    rw [adjustTotals_next]; exact ht
  have hs3hist : (updateBranches (adjustTotals v) (appendToHistory (adjustTotals v)
      (fixQuery q s))).thoughtHistory = s.thoughtHistory ++ [adjustTotals v] := by
    rw [updateBranches_thoughtHistory, appendToHistory_thoughtHistory,
      fixQuery_thoughtHistory]
  have hne : ∀ t ∈ s.thoughtHistory ++ [adjustTotals v], t.thought ≠ "" := by
    intro t htm
    rcases List.mem_append.mp htm with h1 | h1
    · exact hh t h1
    · rw [List.mem_singleton] at h1
      subst h1
      rw [adjustTotals_thought]
      exact validate_ok_thought_ne hv
  simp only [processThought, hv, hnext, Bool.false_eq_true, if_false, hs3hist,
    append_singleton_isEmpty]
  exact storeSession_written_proj env.pref env.nowMs env.storedAtStr env.tsMs
    _ _ env.addOutcome g _ (append_singleton_isEmpty _ _) hne

theorem processManyAux_terminal (env : StoreEnv) (rlast : RawInput)
    (vlast : ThoughtData) (h3 : validateThoughtData rlast = .ok vlast)
    (h4 : vlast.nextThoughtNeeded = false) (rs : List RawInput) :
    ∀ (vs : List ThoughtData) (o : ProcessOut),
      List.Forall₂ (fun r v => validateThoughtData r = .ok v) rs vs →
      (∀ v ∈ vs, v.nextThoughtNeeded = true) →
      (∀ t ∈ o.state.thoughtHistory, t.thought ≠ "") →
      (processManyAux env o (rs ++ [rlast])).written.map (fun e => e.st.data) =
        (o.state.thoughtHistory ++ vs.map adjustTotals) ++ [adjustTotals vlast] := by
  induction rs with
  | nil =>
    intro vs o hf h2 hh
    cases hf
    show (processManyAux env
      (processThought env rlast none o.state o.gatewayBuf) []).written.map
        (fun e => e.st.data) = _
    show (processThought env rlast none o.state o.gatewayBuf).written.map
        (fun e => e.st.data) = _
    rw [processThought_terminal_written env rlast none o.state o.gatewayBuf
      vlast h3 h4 hh]
    simp
  | cons r rest ih =>
    intro vs o hf h2 hh
    cases hf with
    | cons hrv hrest =>
      rename_i v vs'
      have hn : v.nextThoughtNeeded = true := h2 v (by simp)
      have hstep := processThought_nonterminal env r none o.state o.gatewayBuf
        v hrv hn
      show (processManyAux env
        (processThought env r none o.state o.gatewayBuf)
        (rest ++ [rlast])).written.map (fun e => e.st.data) = _
      rw [ih vs' (processThought env r none o.state o.gatewayBuf) hrest
        (fun x hx => h2 x (by simp [hx]))
        (by
          rw [hstep.1]
          intro t htm
          rcases List.mem_append.mp htm with h1 | h1
          · exact hh t h1
          · rw [List.mem_singleton] at h1
            subst h1
            rw [adjustTotals_thought]
            exact validate_ok_thought_ne hrv)]
      rw [hstep.1]
      simp

/-- Claim C3: for every sequence of valid steps — any number of
continuation steps followed by one terminal step — processed from a fresh
empty session, the batch handed to the bucket write at the terminal step
is exactly the appended (widened) steps, in arrival order, regardless of
their index values: no step is lost, duplicated, or reordered. -/
theorem C3_flush_arrival_order (env : StoreEnv) (rs : List RawInput)
    (vs : List ThoughtData) (rlast : RawInput) (vlast : ThoughtData)
    (sid : String) (g : List EnhancedThought)
    (h1 : List.Forall₂ (fun r v => validateThoughtData r = .ok v) rs vs)
    (h2 : ∀ v ∈ vs, v.nextThoughtNeeded = true)
    (h3 : validateThoughtData rlast = .ok vlast)
    (h4 : vlast.nextThoughtNeeded = false) :
    ∃ o, processMany env (rs ++ [rlast]) (clearSession sid) g = some o ∧
      o.written.map (fun e => e.st.data) = (vs ++ [vlast]).map adjustTotals := by
  cases rs with
  | nil =>
    cases h1
    refine ⟨processThought env rlast none (clearSession sid) g, rfl, ?_⟩
    rw [processThought_terminal_written env rlast none (clearSession sid) g
      vlast h3 h4 (by intro t htm; simp [clearSession] at htm)]
    simp [clearSession]
  | cons r rest =>
    cases h1 with
    | cons hrv hrest =>
      rename_i v vs'
      have hn : v.nextThoughtNeeded = true := h2 v (by simp)
      have hstep := processThought_nonterminal env r none (clearSession sid) g
        v hrv hn
      refine ⟨processManyAux env
        (processThought env r none (clearSession sid) g) (rest ++ [rlast]),
        rfl, ?_⟩
      rw [processManyAux_terminal env rlast vlast h3 h4 rest vs'
        (processThought env r none (clearSession sid) g) hrest
        (fun x hx => h2 x (by simp [hx]))
        (by
          rw [hstep.1]
          intro t htm
          simp [clearSession] at htm
          subst htm
          rw [adjustTotals_thought]
          exact validate_ok_thought_ne hrv)]
      rw [hstep.1]
      simp [clearSession]

/-- The second continuation step of the spec's end-to-end scenario. -/
def rawStepB : RawInput :=
  { thought := some (.str "B"), thoughtNumber := some (.num 2)
    totalThoughts := some (.num 3), nextThoughtNeeded := some (.boolVal true)
    isRevision := none, revisesThought := none, branchFromThought := none
    branchId := none, needsMoreThoughts := none }

/-- Witness for C3 on the spec's A, B, C scenario: flushing after
`A(1/3, cont)`, `B(2/3, cont)`, `C(4/3, final)` stores exactly A, B, C in
arrival order, with C's estimate widened to 4. -/
theorem C3_flush_arrival_order_witness :
    (processMany envOk [rawValidA, rawStepB, rawTerminal]
        (clearSession "session-1") []).map
      (fun o => o.written.map (fun e => e.st.data)) =
    some [⟨"A", 1, 3, true, none, none, none, none, none⟩,
          ⟨"B", 2, 3, true, none, none, none, none, none⟩,
          ⟨"C", 4, 4, false, none, none, none, none, none⟩] := by
  obtain ⟨o, ho, hw⟩ := C3_flush_arrival_order envOk [rawValidA, rawStepB]
    [⟨"A", 1, 3, true, none, none, none, none, none⟩,
     ⟨"B", 2, 3, true, none, none, none, none, none⟩]
    rawTerminal ⟨"C", 4, 3, false, none, none, none, none, none⟩
    "session-1" []
    (.cons rfl (.cons rfl .nil))
    (by decide) rfl rfl
  rw [show ([rawValidA, rawStepB, rawTerminal] : List RawInput) =
    [rawValidA, rawStepB] ++ [rawTerminal] from rfl, ho]
  simp only [Option.map_some']
  rw [hw]
  rfl

end SeqThink
